import Mathlib

/-!
Verification development for the PPClipper service (src/app.py, a single Flask
application).  The relevant handlers are shallowly embedded as pure Lean
functions: timezone-aware UTC instants become integer microseconds since the
epoch, outbound HTTP calls become oracle parameters, and the SQLite queries
are embedded by their documented semantics.  Each claim about the
specification is then settled by a theorem about these definitions.
-/

namespace PPClipper

/-! ### Clip Composer: offset computation (create_clip, src/app.py lines 188-206) -/

/-- Embeds lines 196-202 of create_clip.  Instants are integer microseconds
since the epoch in UTC (Python datetimes have microsecond resolution).  The
candidate clip instant is 35 seconds before now; if it precedes the stream
start the offset is clamped to 0, otherwise Python computes
int(timedelta.total_seconds()), which truncates toward zero — the difference
is non-negative in that branch, so truncation agrees with Nat floor
division of the microsecond difference. -/
def seconds_since_start (nowUs streamStartUs : Int) : Int :=
  let clipTimeUs := nowUs - 35 * 1000000
  if clipTimeUs < streamStartUs then 0
  else ((clipTimeUs - streamStartUs).toNat / 1000000 : Nat)

/-! ### Live-Stream Locator (get_active_live_video_id, lines 92-127) -/

/-- Result of one YouTube live-search request for a channel.  The constructor
err covers every raising failure: network error, timeout, a non-2xx status
(raise_for_status), invalid JSON, or a malformed items[0] structure.  The
constructor ok gives the video ids of a well-formed 2xx response; the empty
list is a response whose items list is empty or absent (channel not live). -/
inductive QueryResult where
  | err : QueryResult
  | ok : List String → QueryResult
deriving DecidableEq

/-- Observable outcome of the channel scan: the video id returned by the
function (if any) together with the channels actually queried, in order. -/
structure ScanState where
  result : Option String
  queried : List String
deriving DecidableEq

/-- Embeds the channel loop of get_active_live_video_id (lines 105-121).  The
try block of the function wraps the whole loop and the handlers at lines
122-127 return None, so a raising query aborts the entire scan: no later
channel is queried.  A live hit returns the first reported video id of the
hitting channel at once. -/
def scanChannels (query : String → QueryResult) : List String → List String → ScanState
  | [], qd => ⟨none, qd⟩
  | c :: rest, qd =>
    match query c with
    | .err => ⟨none, qd ++ [c]⟩
    | .ok [] => scanChannels query rest (qd ++ [c])
    | .ok (v :: _) => ⟨some v, qd ++ [c]⟩

/-- Embeds get_active_live_video_id (lines 92-127): a missing API key or an
empty registry yields None without querying anything. -/
def get_active_live_video_id (hasApiKey : Bool) (query : String → QueryResult)
    (channels : List String) : ScanState :=
  if hasApiKey then scanChannels query channels [] else ⟨none, []⟩

/-! ### Notification sink and persistence tail of create_clip (lines 211-246) -/

/-- Outcome of the requests.post call to the Discord webhook.  The code never
calls raise_for_status on this response, so any returned status (2xx or not)
is simply discarded; raised covers network errors and timeouts. -/
inductive PostOutcome where
  | response : Nat → PostOutcome
  | raised : PostOutcome
deriving DecidableEq

/-- Outcome of the INSERT INTO clips statement plus commit. -/
inductive ClipDbOutcome where
  | committed : ClipDbOutcome
  | sqliteError : ClipDbOutcome
  | otherError : ClipDbOutcome
deriving DecidableEq

/-- Observable result of the tail of create_clip: the HTTP status returned,
whether the clip row was persisted, and whether a webhook delivery was
attempted. -/
structure ClipSaveResult where
  status : Nat
  inserted : Bool
  webhookAttempted : Bool
deriving DecidableEq

/-- Embeds lines 211-246 of create_clip.  When a webhook URL is configured the
post is attempted inside try/except; both except arms (RequestException and
the generic Exception) only log, so control always reaches the database
insert.  When no URL is configured the whole block is skipped.  The insert
then decides the response: commit gives 200, a sqlite3.Error or any other
exception rolls back and gives 500. -/
def create_clip_finish (webhookUrl : Option String) (post : PostOutcome)
    (db : ClipDbOutcome) : ClipSaveResult :=
  let attempted : Bool :=
    match webhookUrl with
    | none => false
    | some _ =>
      match post with
      | .response _ => true
      | .raised => true
  match db with
  | .committed => ⟨200, true, attempted⟩
  | .sqliteError => ⟨500, false, attempted⟩
  | .otherError => ⟨500, false, attempted⟩

/-! ### Admin Gateway (admin_required, lines 76-89) -/

/-- Outcome of the admin_required decorator: misconfigured is the 500
"Server configuration error" answer, unauthorized the 403 answer, and
granted means the wrapped handler runs. -/
inductive AdminResult where
  | misconfigured : AdminResult
  | unauthorized : AdminResult
  | granted : AdminResult
deriving DecidableEq

/-- Embeds admin_required (lines 76-89).  The configured key is none when the
ADMIN_API_KEY environment variable is unset; Python truthiness also rejects
an empty configured key (line 79).  The presented key is the x-api-key
header, none when absent; the handler runs exactly when the header equals
the configured key (line 84). -/
def admin_required (adminKey : Option String) (headerKey : Option String) : AdminResult :=
  match adminKey with
  | none => .misconfigured
  | some k =>
    if k = "" then .misconfigured
    else if headerKey = some k then .granted
    else .unauthorized

/-! ### Channel Registry and add_channel_api (lines 323-361) -/

/-- Row of the channels table: surrogate id, unique channel_id, optional name. -/
structure Channel where
  id : Nat
  channel_id : String
  name : Option String
deriving DecidableEq

/-- Embeds add_channel_api (lines 323-361).  The body is none for a non-JSON
request (400); a missing or empty channel_id gives 400 (Python truthiness at
line 333).  The UC-prefix format check at lines 337-339 only prints — its
rejection is commented out in the source — so it never affects the result.
The INSERT raises sqlite3.IntegrityError exactly when the UNIQUE channel_id
constraint is violated, i.e. when the id is already present; the handler
rolls back and answers 409 with the registry unchanged.  Otherwise the row
is committed with the next surrogate id and the handler answers 201. -/
def add_channel_api (channels : List Channel) (nextId : Nat)
    (body : Option (Option String × Option String)) : Nat × List Channel :=
  match body with
  | none => (400, channels)
  | some (cidOpt, nameOpt) =>
    match cidOpt with
    | none => (400, channels)
    | some cid =>
      if cid = "" then (400, channels)
      else if channels.any (fun c => c.channel_id = cid) then (409, channels)
      else (201, channels ++ [⟨nextId, cid, nameOpt⟩])

/-! ### Clip Store listing (get_clips_api, lines 249-307) -/

/-- Row of the clips table as selected at lines 286-287.  The timestamp column
stores the TEXT now_utc.isoformat() written at insert time. -/
structure ClipRow where
  id : Nat
  title : String
  user : String
  clip_url : String
  thumbnail_url : String
  video_id : String
  timestamp : String
deriving DecidableEq

/-- SQLite LIKE folds only ASCII letters: the default comparison maps A-Z to
a-z and leaves every other character (including non-ASCII letters) as is. -/
def foldAsciiCase (c : Char) : Char :=
  if 'A' ≤ c ∧ c ≤ 'Z' then Char.ofNat (c.toNat + 32) else c

/-- SQLite LIKE pattern matching against a string, both as char lists: a
percent sign matches any run of characters, an underscore matches any single
character, and every other pattern character compares
ASCII-case-insensitively with the next string character. -/
def likeMatch : List Char → List Char → Bool
  | [], s => s.isEmpty
  | p :: ps, s =>
    if p = '%' then
      likeMatch ps s ||
        (match s with
         | [] => false
         | _ :: s2 => likeMatch (p :: ps) s2)
    else
      match s with
      | [] => false
      | c :: s2 =>
        if p = '_' then likeMatch ps s2
        else (foldAsciiCase p = foldAsciiCase c) && likeMatch ps s2
termination_by p s => p.length + s.length
decreasing_by all_goals simp_wf <;> omega

/-- Case-insensitive (ASCII) prefix test between char lists; a helper used to
state what "the term occurs at the front" means. -/
def prefCI : List Char → List Char → Bool
  | [], _ => true
  | _ :: _, [] => false
  | a :: t, b :: s => (foldAsciiCase a = foldAsciiCase b) && prefCI t s

/-- Case-insensitive (ASCII) contiguous-occurrence test: the first char list
occurs somewhere inside the second, up to ASCII case.  This is the
specification-side notion of a case-insensitive substring. -/
def subCI (t : List Char) : List Char → Bool
  | [] => prefCI t []
  | b :: s2 => prefCI t (b :: s2) || subCI t s2

/-- Embeds the condition title LIKE ? with parameter percent-term-percent
(lines 266-268): the raw search text is spliced between two percent signs,
so percent and underscore characters inside the term keep their wildcard
meaning. -/
def likeContains (term s : String) : Bool :=
  likeMatch ('%' :: (term.data ++ ['%'])) s.data

/-- One row passes the WHERE clause when the LIKE pattern matches its title or
its user column (line 266). -/
def clipMatches (q : String) (c : ClipRow) : Bool :=
  likeContains q c.title || likeContains q c.user

/-- The WHERE clause is added only when the stripped search text is non-empty
(line 265); otherwise every row is kept. -/
def filterClips (q : String) (rows : List ClipRow) : List ClipRow :=
  if q = "" then rows else rows.filter (clipMatches q)

/-- LIMIT ? OFFSET ? semantics in SQLite: a negative LIMIT means no upper
bound on the number of rows, and a non-positive OFFSET skips nothing. -/
def sqlLimitOffset (limit offset : Int) (l : List ClipRow) : List ClipRow :=
  if limit < 0 then l.drop (max 0 offset).toNat
  else (l.drop (max 0 offset).toNat).take limit.toNat

/-- Key order realised by ORDER BY timestamp DESC: SQLite compares TEXT
bytewise on the UTF-8 encoding, which coincides with the codepoint
lexicographic order on strings; descending means later rows have keys less
than or equal to earlier ones. -/
def tsGE (a b : ClipRow) : Prop := b.timestamp ≤ a.timestamp

instance : DecidableRel tsGE :=
  fun a b => inferInstanceAs (Decidable (b.timestamp ≤ a.timestamp))

instance : IsTotal ClipRow tsGE := ⟨fun a b => le_total b.timestamp a.timestamp⟩

instance : IsTrans ClipRow tsGE := ⟨fun _ _ _ h1 h2 => le_trans h2 h1⟩

/-- A function realises the ORDER BY timestamp DESC clause exactly when it
returns a timestamp-descending permutation of its input.  SQLite documents
nothing further: the relative order of rows with equal timestamps is
unspecified, so the embedding of get_clips_api is parametric in the sorter
and every theorem quantifies over the realisations. -/
def SortSpec (f : List ClipRow → List ClipRow) : Prop :=
  ∀ l, (f l).Perm l ∧ (f l).Pairwise tsGE

/-- One admissible realisation of ORDER BY: stable insertion sort on the
descending key order (rows with equal timestamps keep table order). -/
def sortDescStable (l : List ClipRow) : List ClipRow := List.insertionSort tsGE l

/-- Ascending key order on rows, used to build a second admissible sorter. -/
def tsLE (a b : ClipRow) : Prop := a.timestamp ≤ b.timestamp

instance : DecidableRel tsLE :=
  fun a b => inferInstanceAs (Decidable (a.timestamp ≤ b.timestamp))

instance : IsTotal ClipRow tsLE := ⟨fun a b => le_total a.timestamp b.timestamp⟩

instance : IsTrans ClipRow tsLE := ⟨fun _ _ _ h1 h2 => le_trans h1 h2⟩

/-- Another admissible realisation of ORDER BY: ascending stable insertion
sort followed by reversal.  It also returns a timestamp-descending
permutation, but rows with equal timestamps come out in reversed table
order. -/
def sortDescRev (l : List ClipRow) : List ClipRow := (List.insertionSort tsLE l).reverse

/-- The JSON answer of get_clips_api (lines 299-307): the page of rows and the
pagination block. -/
structure Listing where
  clips : List ClipRow
  currentPage : Int
  itemsPerPage : Int
  totalItems : Nat
  totalPages : Int
deriving DecidableEq

/-- Embeds get_clips_api (lines 249-307) over the table contents rows, with the
ORDER BY clause supplied as the sorter parameter (see SortSpec).  The search
argument is the already-stripped query text (the handler strips whitespace
at line 253 before the emptiness test).  Page and limit are the caller
supplied integers; offset is (page - 1) * limit (line 256).  The count query
gives totalItems over the filtered rows; the data query applies ORDER BY,
LIMIT and OFFSET.  Python floor division at line 297 is Int.fdiv; when limit
is 0 that line raises ZeroDivisionError, so the operation returns no listing
(modelled as none). -/
def get_clips_api (sortImpl : List ClipRow → List ClipRow) (rows : List ClipRow)
    (page limit : Int) (search : String) : Option Listing :=
  let offset := (page - 1) * limit
  let filtered := filterClips search rows
  let total := filtered.length
  let sorted := sortImpl filtered
  let pageRows := sqlLimitOffset limit offset sorted
  if limit = 0 then none
  else
    some
      { clips := pageRows
        currentPage := page
        itemsPerPage := limit
        totalItems := total
        totalPages := max 1 (((total : Int) + limit - 1).fdiv limit) }

/-! ### Concrete data used by witnesses and counterexamples -/

/-- Demo oracle: channel A not live, channel B live with first video V1,
channel C live with video V2. -/
def demoQuery : String → QueryResult := fun c =>
  if c = "A" then .ok []
  else if c = "B" then .ok ["V1"]
  else .ok ["V2"]

/-- Demo oracle where the query for channel A raises and channel B is live. -/
def demoQueryErr : String → QueryResult := fun c =>
  if c = "A" then .err
  else if c = "B" then .ok ["V1"]
  else .ok []

/-- Two clip rows with equal timestamps, in table (insertion) order. -/
def rowTie1 : ClipRow :=
  ⟨1, "first clip", "alice", "u1", "t1", "v1", "2024-01-01T00:00:00+00:00"⟩

/-- Second row of the tie pair; later surrogate id, same timestamp. -/
def rowTie2 : ClipRow :=
  ⟨2, "second clip", "bob", "u2", "t2", "v2", "2024-01-01T00:00:00+00:00"⟩

/-- A clip row whose title and user contain no percent sign at all. -/
def rowPlain : ClipRow :=
  ⟨3, "abc", "u", "u3", "t3", "v3", "2024-01-02T00:00:00+00:00"⟩

/-- A clip row with user Alice, used for the search example. -/
def rowAlice : ClipRow :=
  ⟨4, "some title", "Alice", "u4", "t4", "v4", "2024-01-03T00:00:00+00:00"⟩

/-! ### Theorems -/

/-- C1: for every stream-start instant and current instant (microseconds since
the epoch, UTC), the clip computation sets the candidate to now minus 35
seconds and produces exactly the clamp max 0 (floor of (candidate minus
start) in whole seconds): the floor itself when the candidate is at or
after the stream start, zero when the candidate precedes it, and never a
negative value. -/
theorem clip_offset_spec (nowUs startUs : Int) :
    seconds_since_start nowUs startUs
        = max 0 ((nowUs - 35 * 1000000 - startUs).fdiv 1000000)
      ∧ (startUs ≤ nowUs - 35 * 1000000 →
          seconds_since_start nowUs startUs
            = (nowUs - 35 * 1000000 - startUs).fdiv 1000000)
      ∧ (nowUs - 35 * 1000000 < startUs → seconds_since_start nowUs startUs = 0)
      ∧ 0 ≤ seconds_since_start nowUs startUs := by
  have hfd : (nowUs - 35 * 1000000 - startUs).fdiv 1000000
      = (nowUs - 35 * 1000000 - startUs) / 1000000 :=
    Int.fdiv_eq_ediv _ (by norm_num)
  by_cases h : nowUs - 35 * 1000000 < startUs
  · have h0 : seconds_since_start nowUs startUs = 0 := by
      simp only [seconds_since_start]
      rw [if_pos h]
    have hneg : (nowUs - 35 * 1000000 - startUs) / 1000000 < 0 :=
      Int.ediv_neg' (by omega) (by norm_num)
    constructor
    · rw [h0, hfd]
      omega
    constructor
    · intro hle
      exact absurd hle (by omega)
    constructor
    · intro _
      exact h0
    · rw [h0]
  · push_neg at h
    have hd : 0 ≤ nowUs - 35 * 1000000 - startUs := by omega
    have hval : seconds_since_start nowUs startUs
        = (((nowUs - 35 * 1000000 - startUs).toNat / 1000000 : Nat) : Int) := by
      simp only [seconds_since_start]
      rw [if_neg (not_lt.mpr h)]
    have hcast : (((nowUs - 35 * 1000000 - startUs).toNat / 1000000 : Nat) : Int)
        = (nowUs - 35 * 1000000 - startUs) / 1000000 := by
      rw [Int.ofNat_ediv, Int.toNat_of_nonneg hd]
      norm_num
    have hnn : 0 ≤ (nowUs - 35 * 1000000 - startUs) / 1000000 :=
      Int.ediv_nonneg hd (by norm_num)
    constructor
    · rw [hval, hcast, hfd]
      omega
    constructor
    · intro _
      rw [hval, hcast, hfd]
    constructor
    · intro hlt
      exact absurd hlt (by omega)
    · rw [hval, hcast]
      exact hnn

/-- Witness for clip_offset_spec at the end-to-end example of the spec:
stream start at the epoch, now 100 seconds later, offset 65 seconds. -/
theorem clip_offset_spec_witness :
    ((0 : Int) ≤ 100 * 1000000 - 35 * 1000000
        ∧ seconds_since_start (100 * 1000000) 0
            = ((100 : Int) * 1000000 - 35 * 1000000 - 0).fdiv 1000000)
      ∧ ((100 : Int) * 1000000 - 35 * 1000000 - 0).fdiv 1000000 = 65 :=
  ⟨⟨by norm_num, (clip_offset_spec (100 * 1000000) 0).2.1 (by norm_num)⟩, by decide⟩

/-- Channels answering a well-formed response with an empty items list are
passed over: scanning a list with such a channel block in front continues
on the remaining channels, logging the block as queried. -/
theorem scanChannels_skip (query : String → QueryResult) (pre rest qd : List String)
    (hpre : ∀ a ∈ pre, query a = .ok []) :
    scanChannels query (pre ++ rest) qd = scanChannels query rest (qd ++ pre) := by
  induction pre generalizing qd with
  | nil => simp
  | cons c pre ih =>
    have hc : query c = .ok [] := hpre c (by simp)
    have hrest : ∀ a ∈ pre, query a = .ok [] := fun a ha => hpre a (by simp [ha])
    have step : scanChannels query ((c :: pre) ++ rest) qd
        = scanChannels query (pre ++ rest) (qd ++ [c]) := by
      show scanChannels query (c :: (pre ++ rest)) qd = _
      simp [scanChannels, hc]
    rw [step, ih _ hrest]
    simp

/-- C2 counterexample: with the query for channel A raising and channel B live
with video V1, the scan returns no video id and never queries B.  A single
channel's failure does end the scan before the channels after it, against
the claim that the failing channel is merely treated as not live and the
scan continues (which would have surfaced V1 from B). -/
theorem scan_abort_cex :
    scanChannels demoQueryErr ["A", "B"] [] = ⟨none, ["A"]⟩
      ∧ demoQueryErr "B" = .ok ["V1"]
      ∧ "B" ∉ (scanChannels demoQueryErr ["A", "B"] []).queried := by
  decide

/-- C2 (amended): a raising per-channel query (network error, timeout, non-2xx
status, malformed payload) aborts the whole scan — the exception reaches the
function-level handler, which returns no video id — and the channels after
the failing one are never queried; channels before it that answered a
well-formed empty items list are passed over. -/
theorem scan_abort_on_error (query : String → QueryResult) (pre rest : List String)
    (c : String) (qd : List String)
    (hpre : ∀ a ∈ pre, query a = .ok []) (hc : query c = .err) :
    scanChannels query (pre ++ c :: rest) qd = ⟨none, qd ++ pre ++ [c]⟩ := by
  rw [scanChannels_skip query pre (c :: rest) qd hpre]
  simp [scanChannels, hc]

/-- Witness for scan_abort_on_error: channel A raises, channels B and C are
behind it; the scan returns nothing and only A was queried. -/
theorem scan_abort_on_error_witness :
    scanChannels demoQueryErr ([] ++ "A" :: ["B", "C"]) [] = ⟨none, [] ++ [] ++ ["A"]⟩ :=
  scan_abort_on_error demoQueryErr [] ["B", "C"] "A" []
    (fun a ha => absurd ha (List.not_mem_nil a)) (by decide)

/-- C3: the scan visits channels in registry order and stops at the first
channel whose query reports a live item, returning that channel's first
reported video id; the query log ends exactly at that channel, so the
channels after the first live hit are never queried. -/
theorem scan_first_live_hit (query : String → QueryResult) (pre rest : List String)
    (c v : String) (vs : List String) (qd : List String)
    (hpre : ∀ a ∈ pre, query a = .ok []) (hc : query c = .ok (v :: vs)) :
    scanChannels query (pre ++ c :: rest) qd = ⟨some v, qd ++ pre ++ [c]⟩ := by
  rw [scanChannels_skip query pre (c :: rest) qd hpre]
  simp [scanChannels, hc]

/-- Witness for scan_first_live_hit on the spec's example: channels A (not
live), B (live, first video V1), C (live, video V2); the result is V1 from
B and C is absent from the query log. -/
theorem scan_first_live_hit_witness :
    scanChannels demoQuery (["A"] ++ "B" :: ["C"]) [] = ⟨some "V1", [] ++ ["A"] ++ ["B"]⟩ :=
  scan_first_live_hit demoQuery ["A"] ["C"] "B" "V1" [] []
    (fun a ha => by
      rw [List.mem_singleton] at ha
      subst ha
      decide)
    (by decide)

/-- C4: the response status and the persistence of the clip row are
independent of the webhook configuration and of the delivery outcome; when
the insert commits, the operation answers 200 with the row inserted
whatever the webhook did; and with no webhook configured no delivery is
attempted while the operation still succeeds on commit. -/
theorem webhook_failure_isolated (url url2 : Option String) (post post2 : PostOutcome)
    (db : ClipDbOutcome) :
    ((create_clip_finish url post db).status = (create_clip_finish url2 post2 db).status
        ∧ (create_clip_finish url post db).inserted
            = (create_clip_finish url2 post2 db).inserted)
      ∧ (db = .committed →
          (create_clip_finish url post db).status = 200
            ∧ (create_clip_finish url post db).inserted = true)
      ∧ (create_clip_finish none post db).webhookAttempted = false := by
  cases db <;> cases url <;> cases url2 <;> cases post <;> cases post2 <;>
    simp [create_clip_finish]

/-- Witness for webhook_failure_isolated: a configured webhook whose delivery
raises still leaves a committed clip with a 200 answer. -/
theorem webhook_failure_isolated_witness :
    (create_clip_finish (some "hook") .raised .committed).status = 200
      ∧ (create_clip_finish (some "hook") .raised .committed).inserted = true :=
  (webhook_failure_isolated (some "hook") none .raised .raised .committed).2.1 rfl

/-- C8: with no configured admin secret (environment variable unset, or the
empty string, which Python truthiness also rejects) every call answers the
server-misconfiguration outcome; with a configured non-empty secret, an
absent or different presented secret answers the authorization failure; and
the guarded handler runs exactly when the presented secret equals the
configured non-empty one.  The two rejections are distinct constructors
(HTTP 500 versus 403 in the source). -/
theorem admin_gateway_auth (adminKey headerKey : Option String) :
    ((adminKey = none ∨ adminKey = some "") →
        admin_required adminKey headerKey = .misconfigured)
      ∧ (∀ k, adminKey = some k → k ≠ "" → headerKey ≠ some k →
          admin_required adminKey headerKey = .unauthorized)
      ∧ (admin_required adminKey headerKey = .granted ↔
          ∃ k, k ≠ "" ∧ adminKey = some k ∧ headerKey = some k) := by
  cases adminKey with
  | none =>
    refine ⟨fun _ => rfl, fun k hk => absurd hk (by simp), ?_⟩
    constructor
    · intro hg
      exact absurd hg (by simp [admin_required])
    · rintro ⟨k, _, hk, _⟩
      exact absurd hk (by simp)
  | some k =>
    by_cases hk : k = ""
    · subst hk
      refine ⟨fun _ => by simp [admin_required], ?_, ?_⟩
      · rintro k' hk' hne _
        rw [Option.some.injEq] at hk'
        exact absurd hk'.symm hne
      constructor
      · intro hg
        exact absurd hg (by simp [admin_required])
      · rintro ⟨k', hne, hk', _⟩
        rw [Option.some.injEq] at hk'
        exact absurd hk'.symm hne
    · by_cases hh : headerKey = some k
      · refine ⟨?_, ?_, ?_⟩
        · rintro (h | h)
          · exact absurd h (by simp)
          · rw [Option.some.injEq] at h
            exact absurd h hk
        · rintro k' hk' _ hne
          rw [Option.some.injEq] at hk'
          subst hk'
          exact absurd hh hne
        · constructor
          · intro _
            exact ⟨k, hk, rfl, hh⟩
          · intro _
            simp [admin_required, hk, hh]
      · refine ⟨?_, ?_, ?_⟩
        · rintro (h | h)
          · exact absurd h (by simp)
          · rw [Option.some.injEq] at h
            exact absurd h hk
        · intro _ _ _ _
          simp [admin_required, hk, hh]
        · constructor
          · intro hg
            have : admin_required (some k) headerKey = .unauthorized := by
              simp [admin_required, hk, hh]
            rw [this] at hg
            exact absurd hg (by simp)
          · rintro ⟨k', _, hk', hh'⟩
            rw [Option.some.injEq] at hk'
            subst hk'
            exact absurd hh' hh

/-- Witness for admin_gateway_auth: a configured secret with no presented
header is rejected as unauthorized. -/
theorem admin_gateway_auth_witness :
    admin_required (some "sek") none = .unauthorized :=
  (admin_gateway_auth (some "sek") none).2.1 "sek" rfl (by decide) (by decide)

/-- C9: a channel-create request whose external channel id already appears in
the registry (necessarily a non-empty id, as every id the handler admits
is non-empty) answers 409 Conflict — the UNIQUE constraint fires, the
transaction is rolled back — and the registry is returned exactly
unchanged: no channel row is added or modified. -/
theorem add_channel_duplicate_conflict (channels : List Channel) (nextId : Nat)
    (cid : String) (nameOpt : Option String)
    (hmem : cid ∈ channels.map Channel.channel_id) (hne : cid ≠ "") :
    add_channel_api channels nextId (some (some cid, nameOpt)) = (409, channels) := by
  have hany : channels.any (fun c => c.channel_id = cid) = true := by
    rw [List.any_eq_true]
    rcases List.mem_map.mp hmem with ⟨c, hc, hcid⟩
    exact ⟨c, hc, by simp [hcid]⟩
  simp [add_channel_api, hne, hany]

/-- Witness for add_channel_duplicate_conflict on a one-channel registry. -/
theorem add_channel_duplicate_conflict_witness :
    add_channel_api [⟨1, "UCx", none⟩] 2 (some (some "UCx", some "Name"))
      = (409, [⟨1, "UCx", none⟩]) :=
  add_channel_duplicate_conflict [⟨1, "UCx", none⟩] 2 "UCx" (some "Name")
    (by decide) (by decide)

/-- C10: the listing is partial in the caller-supplied page size: with limit 0
the floor division producing totalPages divides by zero (Python raises
ZeroDivisionError at line 297) and the operation yields no listing, for
every store contents, page and search term; for every limit of at least 1
it always yields a listing. -/
theorem listing_zero_limit_fails (sortImpl : List ClipRow → List ClipRow)
    (rows : List ClipRow) (page : Int) (search : String) :
    get_clips_api sortImpl rows page 0 search = none
      ∧ ∀ limit : Int, 1 ≤ limit →
          ∃ out, get_clips_api sortImpl rows page limit search = some out := by
  constructor
  · simp [get_clips_api]
  · intro limit hl
    refine ⟨{ clips := sqlLimitOffset limit ((page - 1) * limit) (sortImpl (filterClips search rows)),
              currentPage := page, itemsPerPage := limit,
              totalItems := (filterClips search rows).length,
              totalPages := max 1 ((((filterClips search rows).length : Int) + limit - 1).fdiv limit) }, ?_⟩
    simp [get_clips_api, show limit ≠ 0 by omega]

/-- Witness for listing_zero_limit_fails: limit 0 fails on the empty
store while limit 12 succeeds. -/
theorem listing_zero_limit_fails_witness :
    get_clips_api sortDescStable [] 1 0 "" = none
      ∧ ∃ out, get_clips_api sortDescStable [] 1 12 "" = some out :=
  ⟨(listing_zero_limit_fails sortDescStable [] 1 "").1,
    (listing_zero_limit_fails sortDescStable [] 1 "").2 12 (by norm_num)⟩

/-- C5: for every sorter realising ORDER BY, every store contents, search
term, page, and page size of at least 1, the listing always succeeds (never
an error); totalItems is the number of rows passing the filter; totalPages
is the ceiling of totalItems divided by the page size, clamped to a minimum
of 1; currentPage echoes the 1-indexed page argument; and page 1 starts at
the first sorted row, returning the first pageSize of them.  The
empty-store instance (page 1, limit 12: empty items, totalItems 0,
totalPages 1) is the witness. -/
theorem pagination_spec (sortImpl : List ClipRow → List ClipRow)
    (rows : List ClipRow) (page limit : Int) (search : String) (hl : 1 ≤ limit) :
    ∃ out, get_clips_api sortImpl rows page limit search = some out
      ∧ out.totalItems = (filterClips search rows).length
      ∧ out.totalPages = ((max 1 (out.totalItems ⌈/⌉ limit.toNat) : Nat) : Int)
      ∧ out.currentPage = page
      ∧ (page = 1 → out.clips = (sortImpl (filterClips search rows)).take limit.toNat) := by
  have hne : limit ≠ 0 := by omega
  have hnn : (0 : Int) ≤ limit := by omega
  refine ⟨{ clips := sqlLimitOffset limit ((page - 1) * limit) (sortImpl (filterClips search rows)),
            currentPage := page, itemsPerPage := limit,
            totalItems := (filterClips search rows).length,
            totalPages := max 1 ((((filterClips search rows).length : Int) + limit - 1).fdiv limit) },
      ?_, rfl, ?_, rfl, ?_⟩
  · simp [get_clips_api, hne]
  · show max 1 ((((filterClips search rows).length : Int) + limit - 1).fdiv limit)
        = ((max 1 ((filterClips search rows).length ⌈/⌉ limit.toNat) : Nat) : Int)
    set t := (filterClips search rows).length with ht
    have hl1 : 1 ≤ limit.toNat := by omega
    have hlcast : ((limit.toNat : Nat) : Int) = limit := Int.toNat_of_nonneg hnn
    have hnum : ((t + limit.toNat - 1 : ℕ) : ℤ) = (t : ℤ) + limit - 1 := by omega
    have hdiv : (((t + limit.toNat - 1) / limit.toNat : ℕ) : ℤ)
        = ((t : ℤ) + limit - 1) / limit := by
      rw [Int.ofNat_ediv, hlcast, hnum]
    rw [Nat.ceilDiv_eq_add_pred_div, Int.fdiv_eq_ediv _ hnn, Nat.cast_max, hdiv]
    norm_num
  · intro hp
    subst hp
    show sqlLimitOffset limit ((1 - 1) * limit) (sortImpl (filterClips search rows))
        = (sortImpl (filterClips search rows)).take limit.toNat
    norm_num [sqlLimitOffset, show ¬ limit < 0 by omega]

/-- Witness for pagination_spec: the empty store with page 1 and limit 12
yields the empty item list, totalItems 0, totalPages 1, and no error. -/
theorem pagination_spec_witness :
    ∃ out, get_clips_api sortDescStable [] 1 12 "" = some out
      ∧ out.totalItems = 0 ∧ out.totalPages = 1 ∧ out.clips = [] := by
  obtain ⟨out, hmain, ht, hp, _, hclips⟩ :=
    pagination_spec sortDescStable [] 1 12 "" (by norm_num)
  have ht0 : out.totalItems = 0 := by simpa [filterClips] using ht
  refine ⟨out, hmain, ht0, ?_, ?_⟩
  · rw [hp, ht0]
    decide
  · have hc := hclips rfl
    simpa [sortDescStable, filterClips, List.insertionSort] using hc

/-- The stable descending insertion sort realises ORDER BY timestamp DESC. -/
theorem sortSpec_sortDescStable : SortSpec sortDescStable := by
  intro l
  exact ⟨List.perm_insertionSort tsGE l, List.sorted_insertionSort tsGE l⟩

/-- The reversed ascending insertion sort also realises ORDER BY timestamp
DESC; rows with equal timestamps come out in reversed table order. -/
theorem sortSpec_sortDescRev : SortSpec sortDescRev := by
  intro l
  constructor
  · exact (List.reverse_perm _).trans (List.perm_insertionSort tsLE l)
  · show (List.insertionSort tsLE l).reverse.Pairwise tsGE
    rw [List.pairwise_reverse]
    exact (List.sorted_insertionSort tsLE l).imp (fun hab => hab)

/-- Every page produced by sqlLimitOffset is a sublist of the sorted rows. -/
theorem sqlLimitOffset_sublist (limit offset : Int) (l : List ClipRow) :
    (sqlLimitOffset limit offset l).Sublist l := by
  unfold sqlLimitOffset
  by_cases h : limit < 0
  · rw [if_pos h]
    exact List.drop_sublist _ _
  · rw [if_neg h]
    exact (List.take_sublist _ _).trans (List.drop_sublist _ _)

/-- C6 counterexample: on the two-row store rowTie1, rowTie2 (equal creation
timestamps, table order of increasing id) the sorter sortDescRev satisfies
everything the ORDER BY timestamp DESC clause of the data query guarantees,
yet the listing built on it returns the ids in order 2, 1 — not the
insertion/id tiebreak order 1, 2 the claim asserts.  The query therefore
does not guarantee a stable equal-timestamp order. -/
theorem order_tiebreak_cex :
    ¬ (∀ sortImpl : List ClipRow → List ClipRow, SortSpec sortImpl →
        ∀ out, get_clips_api sortImpl [rowTie1, rowTie2] 1 10 "" = some out →
          out.clips.Pairwise (fun a b => a.timestamp = b.timestamp → a.id ≤ b.id)) := by
  intro hclaim
  have hsort : sortDescRev [rowTie1, rowTie2] = [rowTie2, rowTie1] := by
    simp [sortDescRev, List.insertionSort, List.orderedInsert, tsLE, rowTie1, rowTie2]
  have hout : get_clips_api sortDescRev [rowTie1, rowTie2] 1 10 ""
      = some ⟨[rowTie2, rowTie1], 1, 10, 2, 1⟩ := by
    simp [get_clips_api, filterClips, hsort, sqlLimitOffset,
      List.take_of_length_le, Int.fdiv]
  have hpw := hclaim sortDescRev sortSpec_sortDescRev _ hout
  have h21 := (List.pairwise_cons.mp hpw).1 rowTie1 (by simp)
  have hle : rowTie2.id ≤ rowTie1.id := h21 rfl
  simp [rowTie1, rowTie2] at hle

/-- C6 (amended): for every sorter realising ORDER BY, the returned page is
ordered by creation timestamp descending and is a contiguous slice of some
timestamp-descending permutation of the filtered rows; the relative order
of rows with equal timestamps is not specified by the query (see the
counterexample), so no insertion/id-order tiebreak is guaranteed. -/
theorem order_desc_amended (sortImpl : List ClipRow → List ClipRow)
    (hs : SortSpec sortImpl) (rows : List ClipRow) (page limit : Int)
    (search : String) (out : Listing)
    (hout : get_clips_api sortImpl rows page limit search = some out) :
    out.clips.Pairwise tsGE
      ∧ out.clips.Sublist (sortImpl (filterClips search rows))
      ∧ (sortImpl (filterClips search rows)).Perm (filterClips search rows) := by
  have hspec := hs (filterClips search rows)
  by_cases hne : limit = 0
  · subst hne
    simp [get_clips_api] at hout
  · simp only [get_clips_api, if_neg hne] at hout
    injection hout with hout
    subst hout
    exact ⟨List.Pairwise.sublist (sqlLimitOffset_sublist _ _ _) hspec.2,
      sqlLimitOffset_sublist _ _ _, hspec.1⟩

/-- Witness for order_desc_amended: the stable sorter on the tie pair gives
page [rowTie1, rowTie2], which is timestamp-descending, a sublist of the
sorted rows, and a permutation witness for the filtered store. -/
theorem order_desc_amended_witness :
    ([rowTie1, rowTie2] : List ClipRow).Pairwise tsGE
      ∧ ([rowTie1, rowTie2] : List ClipRow).Sublist
          (sortDescStable (filterClips "" [rowTie1, rowTie2]))
      ∧ (sortDescStable (filterClips "" [rowTie1, rowTie2])).Perm
          (filterClips "" [rowTie1, rowTie2]) := by
  have hsort : sortDescStable [rowTie1, rowTie2] = [rowTie1, rowTie2] := by
    simp [sortDescStable, List.insertionSort, List.orderedInsert, tsGE, rowTie1, rowTie2]
  have hout : get_clips_api sortDescStable [rowTie1, rowTie2] 1 10 ""
      = some ⟨[rowTie1, rowTie2], 1, 10, 2, 1⟩ := by
    simp [get_clips_api, filterClips, hsort, sqlLimitOffset,
      List.take_of_length_le, Int.fdiv]
  have h := order_desc_amended sortDescStable sortSpec_sortDescStable
    [rowTie1, rowTie2] 1 10 "" ⟨[rowTie1, rowTie2], 1, 10, 2, 1⟩ hout
  exact h

/-- A LIKE pattern consisting of a single percent sign matches every string. -/
theorem likeMatch_percent_nil : ∀ s : List Char, likeMatch ['%'] s = true
  | [] => by simp [likeMatch]
  | c :: s => by
    have ih := likeMatch_percent_nil s
    simp [likeMatch, ih]

/-- For a wildcard-free pattern followed by a trailing percent sign, LIKE
matching is exactly the case-insensitive prefix test. -/
theorem likeMatch_literal (t : List Char) (hw : ∀ c ∈ t, c ≠ '%' ∧ c ≠ '_') :
    ∀ s : List Char, likeMatch (t ++ ['%']) s = prefCI t s := by
  induction t with
  | nil =>
    intro s
    simp [prefCI, likeMatch_percent_nil s]
  | cons a t ih =>
    intro s
    have ha := hw a (by simp)
    have hw2 : ∀ c ∈ t, c ≠ '%' ∧ c ≠ '_' := fun c hc => hw c (by simp [hc])
    cases s with
    | nil => simp [likeMatch, prefCI, ha.1]
    | cons b s2 => simp [likeMatch, prefCI, ha.1, ha.2, ih hw2 s2]

/-- For a wildcard-free term t, LIKE with the pattern percent, t, percent is
exactly the case-insensitive occurrence test subCI. -/
theorem likeMatch_subCI (t : List Char) (hw : ∀ c ∈ t, c ≠ '%' ∧ c ≠ '_') :
    ∀ s : List Char, likeMatch ('%' :: (t ++ ['%'])) s = subCI t s
  | [] => by
    simp [likeMatch, subCI, likeMatch_literal t hw []]
  | b :: s2 => by
    have ih := likeMatch_subCI t hw s2
    simp [likeMatch, subCI, likeMatch_literal t hw (b :: s2), ih]

/-- The case-insensitive prefix test characterised: the case-folded string
starts with the case-folded term. -/
theorem prefCI_iff : ∀ t s : List Char, (prefCI t s = true ↔
    ∃ r, s.map foldAsciiCase = t.map foldAsciiCase ++ r)
  | [], s => by simp [prefCI]
  | a :: t, [] => by simp [prefCI]
  | a :: t, b :: s => by
    have ih := prefCI_iff t s
    simp only [prefCI, Bool.and_eq_true, decide_eq_true_eq, List.map_cons,
      List.cons_append, List.cons.injEq, ih]
    constructor
    · rintro ⟨hab, r, hr⟩
      exact ⟨r, hab.symm, hr⟩
    · rintro ⟨r, hba, hr⟩
      exact ⟨hba.symm, r, hr⟩

/-- The case-insensitive occurrence test characterised: some decomposition of
the case-folded string brackets the case-folded term. -/
theorem subCI_iff : ∀ t s : List Char, (subCI t s = true ↔
    ∃ pre post, s.map foldAsciiCase = pre ++ t.map foldAsciiCase ++ post)
  | t, [] => by
    rw [show subCI t [] = prefCI t [] from rfl, prefCI_iff t []]
    constructor
    · rintro ⟨r, hr⟩
      exact ⟨[], r, by simpa using hr⟩
    · rintro ⟨pre, post, h⟩
      simp only [List.map_nil] at h
      rcases List.append_eq_nil.mp h.symm with ⟨hpre, hpost⟩
      rcases List.append_eq_nil.mp hpre with ⟨hpre0, ht0⟩
      exact ⟨[], by simp [ht0]⟩
  | t, b :: s2 => by
    have ih := subCI_iff t s2
    rw [show subCI t (b :: s2) = (prefCI t (b :: s2) || subCI t s2) from rfl]
    simp only [Bool.or_eq_true, prefCI_iff t (b :: s2), ih]
    constructor
    · rintro (⟨r, hr⟩ | ⟨pre, post, h⟩)
      · exact ⟨[], r, by simpa using hr⟩
      · refine ⟨foldAsciiCase b :: pre, post, ?_⟩
        simp [h]
    · rintro ⟨pre, post, h⟩
      cases pre with
      | nil =>
        left
        exact ⟨post, by simpa using h⟩
      | cons x pre =>
        right
        simp only [List.map_cons, List.cons_append, List.cons.injEq] at h
        exact ⟨pre, post, h.2⟩

/-- A pattern starting with a percent sign matches whenever the rest of the
pattern matches the whole string. -/
theorem likeMatch_percent_head (ps s : List Char) (h : likeMatch ps s = true) :
    likeMatch ('%' :: ps) s = true := by
  cases s with
  | nil => simp [likeMatch, h]
  | cons c s2 => simp [likeMatch, h]

/-- A LIKE search for the bare percent term matches every string. -/
theorem likeContains_percent (s : String) : likeContains "%" s = true := by
  have h1 : likeMatch ['%'] s.data = true := likeMatch_percent_nil s.data
  have h2 : likeMatch ['%', '%'] s.data = true := likeMatch_percent_head _ _ h1
  have h3 : likeMatch ['%', '%', '%'] s.data = true := likeMatch_percent_head _ _ h2
  have hp : '%' :: ("%".data ++ ['%']) = ['%', '%', '%'] := by decide
  show likeMatch ('%' :: ("%".data ++ ['%'])) s.data = true
  rw [hp]
  exact h3

/-- C7 counterexample: the search term is spliced unescaped into the LIKE
pattern, so the term consisting of a single percent sign matches rowPlain
(title abc, user u) although it occurs as a substring of neither field:
the code's filter implements LIKE-wildcard matching, not the literal
case-insensitive substring matching the claim states. -/
theorem search_wildcard_cex :
    filterClips "%" [rowPlain] = [rowPlain]
      ∧ subCI "%".data rowPlain.title.data = false
      ∧ subCI "%".data rowPlain.user.data = false := by
  refine ⟨?_, by decide, by decide⟩
  have hm : clipMatches "%" rowPlain = true := by
    simp [clipMatches, likeContains_percent]
  simp [filterClips, hm]

/-- C7 (amended): for every non-empty search term containing no percent and no
underscore character, the filter keeps exactly the rows whose title or user
contains the term as an ASCII-case-insensitive substring; terms are spliced
unescaped into the LIKE pattern, so a percent or underscore in the term
acts as a wildcard instead (see the counterexample).  For the empty term
every row is kept; the last conjunct identifies the occurrence test with
the literal substring decomposition. -/
theorem search_substring_amended (q : String) (hq : q ≠ "")
    (hw : ∀ c ∈ q.data, c ≠ '%' ∧ c ≠ '_') (rows : List ClipRow) :
    filterClips q rows
        = rows.filter (fun r => subCI q.data r.title.data || subCI q.data r.user.data)
      ∧ (∀ rows2 : List ClipRow, filterClips "" rows2 = rows2)
      ∧ (∀ t s : List Char, subCI t s = true ↔
          ∃ pre post, s.map foldAsciiCase = pre ++ t.map foldAsciiCase ++ post) := by
  refine ⟨?_, fun rows2 => rfl, subCI_iff⟩
  unfold filterClips
  rw [if_neg hq]
  apply List.filter_congr
  intro r _
  show clipMatches q r = _
  rw [clipMatches, likeContains, likeContains, likeMatch_subCI q.data hw,
    likeMatch_subCI q.data hw]

/-- Witness for search_substring_amended: the term lic against the row with
user Alice: the filter coincides with the substring filter, which keeps the
row by the case-insensitive match inside Alice. -/
theorem search_substring_amended_witness :
    (filterClips "lic" [rowAlice]
        = [rowAlice].filter
            (fun r => subCI "lic".data r.title.data || subCI "lic".data r.user.data))
      ∧ [rowAlice].filter
            (fun r => subCI "lic".data r.title.data || subCI "lic".data r.user.data)
          = [rowAlice] := by
  refine ⟨(search_substring_amended "lic" (by decide) (by decide) [rowAlice]).1, by decide⟩

end PPClipper
